import Mathlib

/-
Verification of the portfolio-sandbox core of the AI-portfolio dashboard.

The definitions below are a shallow embedding of the TypeScript sources:
  * src/types.ts                     — the data model
  * src/App.tsx                      — the allocation blender (activePortfolio)
                                        and the add-stock handler
  * src/components/PortfolioSandbox  — the sandbox form validation
  * src/services/marketDataService.ts — the market-price and
                                        performance-history simulators
  * src/services/geminiService.ts    — the optimized-allocation
                                        post-processing

JavaScript numbers are modelled as rationals (ℚ); Math.random() draws are
passed in explicitly as rational streams in [0, 1).  The process-wide
price cache (a JS object from ticker to number) is modelled as a total
function `String → ℚ` in which the value 0 stands for "absent": this is
faithful to the source, whose guard `if (!currentPrice)` re-seeds both on
a missing key and on a stored 0.  Calendar dates are modelled as integer
day numbers.
-/

namespace PortfolioApp

/-- MarketData from src/types.ts. -/
structure MarketData where
  currentPrice : ℚ
  priceChange : ℚ
  priceChangePercent : ℚ
  deriving DecidableEq

/-- SuggestedAsset from src/types.ts.  The TS field `portfolio`-level
optional fields are modelled with `Option`. -/
structure SuggestedAsset where
  ticker : String
  name : String
  sector : String
  allocation : ℚ
  beta : ℚ
  expectedReturn : ℚ
  volatility : ℚ
  rationale : String
  marketData : Option MarketData := none
  isUserAdded : Option Bool := none
  purchasePrice : Option ℚ := none
  deriving DecidableEq

/-- PortfolioMetrics from src/types.ts. -/
structure PortfolioMetrics where
  expectedReturn : ℚ
  volatility : ℚ
  weightedBeta : ℚ
  riskScore : ℚ
  deriving DecidableEq

/-- Benchmark from src/types.ts. -/
structure Benchmark where
  name : String
  expectedReturn : ℚ
  volatility : ℚ
  deriving DecidableEq

/-- StrategyAnalysis from src/types.ts. -/
structure StrategyAnalysis where
  summary : String
  conservativeMeasures : String
  marketOutlook : String
  portfolioMetrics : PortfolioMetrics
  benchmarks : List Benchmark
  deriving DecidableEq

/-- PortfolioDetails from src/types.ts.  The TS field holding the asset
list is called `portfolio`; it is named `assets` here. -/
structure PortfolioDetails where
  title : String
  assets : List SuggestedAsset
  strategy : StrategyAnalysis
  deriving DecidableEq

/-- The sandbox-mode title suffix appended in src/App.tsx line 118. -/
def sandboxSuffix : String := " (Sandbox Mode)"

/-- The allocation blender: the `activePortfolio` memo of src/App.tsx
lines 93-124, given the already-selected base portfolio.  On an empty
user-added list the base is returned unchanged; otherwise the base
allocations are rescaled, the user assets appended, and the aggregate
metrics recomputed by the same foldl reductions as the source. -/
def activePortfolioBlend (base : PortfolioDetails)
    (userAddedAssets : List SuggestedAsset) : PortfolioDetails :=
  if userAddedAssets.isEmpty then base
  else
    let totalUserAllocation :=
      userAddedAssets.foldl (fun sum a => sum + a.allocation) 0
    let scaleFactor := max 0 ((100 - totalUserAllocation) / 100)
    let updatedBaseAssets := base.assets.map fun a =>
      { a with allocation := a.allocation * scaleFactor }
    let newPortfolioAssets := updatedBaseAssets ++ userAddedAssets
    let newMetrics : PortfolioMetrics :=
      { expectedReturn := newPortfolioAssets.foldl
          (fun acc a => acc + a.expectedReturn * (a.allocation / 100)) 0
        volatility := newPortfolioAssets.foldl
          (fun acc a => acc + a.volatility * (a.allocation / 100)) 0
        weightedBeta := newPortfolioAssets.foldl
          (fun acc a => acc + a.beta * (a.allocation / 100)) 0
        riskScore := max 1 (min 10
          ((newPortfolioAssets.foldl
            (fun acc a => acc + a.beta * (a.allocation / 100)) 0) * 5 + 5/2)) }
    { base with
        title := base.title ++ sandboxSuffix
        assets := newPortfolioAssets
        strategy := { base.strategy with portfolioMetrics := newMetrics } }

/-- Spec-side reading of an allocation sum: the plain sum of the
`allocation` attributes of a list of assets. -/
def allocSum (assets : List SuggestedAsset) : ℚ :=
  (assets.map SuggestedAsset.allocation).sum

/-- Spec-side reading of an allocation-weighted aggregate: the sum over
the list of (attribute * allocation / 100). -/
def weightedSum (f : SuggestedAsset → ℚ) (assets : List SuggestedAsset) : ℚ :=
  (assets.map (fun a => f a * (a.allocation / 100))).sum

/-- The previous-price lookup of src/services/marketDataService.ts lines
16-20: take the cached price, and re-seed with `Math.random() * 500 + 20`
when it is absent.  A cache value of 0 counts as absent, exactly as the
source's falsy test `if (!currentPrice)` does. -/
def previousPrice (cache : String → ℚ) (useed : ℚ) (t : String) : ℚ :=
  if cache t = 0 then useed * 500 + 20 else cache t

/-- One iteration of the `tickers.forEach` body of fetchMarketData
(src/services/marketDataService.ts lines 15-37): apply the fluctuation
`(Math.random() - 0.5) * 0.05` to the previous price, record the market
data, and write the new price back to the cache.  `useed` and `ufluct`
are the two Math.random() draws of the iteration. -/
def processTicker (cache : String → ℚ) (useed ufluct : ℚ) (t : String) :
    MarketData × (String → ℚ) :=
  let currentPrice := previousPrice cache useed t
  let fluctuation := (ufluct - 1/2) * (5/100)
  let newPrice := currentPrice * (1 + fluctuation)
  let priceChange := newPrice - currentPrice
  ({ currentPrice := newPrice
     priceChange := priceChange
     priceChangePercent := priceChange / currentPrice * 100 },
   fun s => if s = t then newPrice else cache s)

/-- The forEach loop of fetchMarketData, indexing the random draws by
iteration number `k` and threading the cache through. -/
def fetchMarketDataAux (us : ℕ → ℚ × ℚ) :
    List String → (String → ℚ) → ℕ → List (String × MarketData) × (String → ℚ)
  | [], cache, _ => ([], cache)
  | t :: ts, cache, k =>
    let step := processTicker cache (us k).1 (us k).2 t
    let rest := fetchMarketDataAux us ts step.2 (k + 1)
    ((t, step.1) :: rest.1, rest.2)

/-- fetchMarketData from src/services/marketDataService.ts lines 9-40,
as a pure state transformer on the process-wide price cache.  The stream
`us` supplies the Math.random() draws (seed draw, fluctuation draw) per
ticker; the simulated latency delay has no effect on the data. -/
def fetchMarketData (cache : String → ℚ) (us : ℕ → ℚ × ℚ)
    (tickers : List String) : List (String × MarketData) × (String → ℚ) :=
  fetchMarketDataAux us tickers cache 0

/-- A sequence of fetchMarketData calls, each with its own draw stream
and ticker list, threading the shared price cache. -/
def runCalls (cache : String → ℚ) :
    List ((ℕ → ℚ × ℚ) × List String) → (String → ℚ)
  | [] => cache
  | call :: rest => runCalls (fetchMarketData cache call.1 call.2).2 rest

/-- Rounding to 2 decimal places, the model of `toFixed(2)` re-parsing
in the performance-history simulator. -/
def round2 (x : ℚ) : ℚ := ((round (x * 100) : ℤ) : ℚ) / 100

/-- One synthetic daily data point of the performance-history simulator
(PerformanceDataPoint from src/types.ts).  The ISO date string is
modelled as an integer day number. -/
structure PerformanceDataPoint where
  date : ℤ
  portfolioValue : ℚ
  benchmarkValue : ℚ
  aiSuggestionValue : ℚ
  deriving DecidableEq

/-- The loop of fetchPerformanceHistory
(src/services/marketDataService.ts lines 99-113): `j` counts completed
iterations (so the day index is `180 - j` days before today and the date
is `today - 180 + j`), `n` is the number of iterations left, and the
three running values are multiplied by their biased random factors, with
only the *recorded* copies rounded to 2 decimals. -/
def perfHistAux (today : ℤ) (us : ℕ → ℚ × ℚ × ℚ) :
    ℕ → ℚ → ℚ → ℚ → ℕ → List PerformanceDataPoint
  | _, _, _, _, 0 => []
  | j, pv, bv, av, n + 1 =>
    let u := us j
    let pv1 := pv * (1 + (u.1 - 48/100) * (15/1000))
    let bv1 := bv * (1 + (u.2.1 - 49/100) * (14/1000))
    let av1 := av * (1 + (u.2.2 - 47/100) * (16/1000))
    { date := today - 180 + j
      portfolioValue := round2 pv1
      benchmarkValue := round2 bv1
      aiSuggestionValue := round2 av1 }
      :: perfHistAux today us (j + 1) pv1 bv1 av1 n

/-- fetchPerformanceHistory from src/services/marketDataService.ts lines
90-115: 181 daily points (i = 180 down to 0), three random walks started
at 100000.  `us j` supplies the three Math.random() draws of iteration
j. -/
def fetchPerformanceHistory (today : ℤ) (us : ℕ → ℚ × ℚ × ℚ) :
    List PerformanceDataPoint :=
  perfHistAux today us 0 100000 100000 100000 181

/-- Modelled from the spec: the variant of the performance-history loop
that spec.md section 4.4 describes, in which "the walk continues from
the *rounded* value (rounding compounds into subsequent days)".  It
differs from `perfHistAux` only in feeding the rounded values back into
the recursion. -/
def perfHistSpecAux (today : ℤ) (us : ℕ → ℚ × ℚ × ℚ) :
    ℕ → ℚ → ℚ → ℚ → ℕ → List PerformanceDataPoint
  | _, _, _, _, 0 => []
  | j, pv, bv, av, n + 1 =>
    let u := us j
    let pv1 := round2 (pv * (1 + (u.1 - 48/100) * (15/1000)))
    let bv1 := round2 (bv * (1 + (u.2.1 - 49/100) * (14/1000)))
    let av1 := round2 (av * (1 + (u.2.2 - 47/100) * (16/1000)))
    { date := today - 180 + j
      portfolioValue := pv1
      benchmarkValue := bv1
      aiSuggestionValue := av1 }
      :: perfHistSpecAux today us (j + 1) pv1 bv1 av1 n

/-- Modelled from the spec: the rounded-feedback performance-history
simulator that spec.md section 4.4 describes. -/
def fetchPerformanceHistorySpec (today : ℤ) (us : ℕ → ℚ × ℚ × ℚ) :
    List PerformanceDataPoint :=
  perfHistSpecAux today us 0 100000 100000 100000 181

/-- The unrounded random walk underlying the performance-history loop:
the triple of running values after each iteration, with no rounding
anywhere. -/
def perfWalkAux (us : ℕ → ℚ × ℚ × ℚ) :
    ℕ → ℚ → ℚ → ℚ → ℕ → List (ℚ × ℚ × ℚ)
  | _, _, _, _, 0 => []
  | j, pv, bv, av, n + 1 =>
    let u := us j
    let pv1 := pv * (1 + (u.1 - 48/100) * (15/1000))
    let bv1 := bv * (1 + (u.2.1 - 49/100) * (14/1000))
    let av1 := av * (1 + (u.2.2 - 47/100) * (16/1000))
    (pv1, bv1, av1) :: perfWalkAux us (j + 1) pv1 bv1 av1 n

/-- The recorded value triple of a performance data point. -/
def valueTriple (p : PerformanceDataPoint) : ℚ × ℚ × ℚ :=
  (p.portfolioValue, p.benchmarkValue, p.aiSuggestionValue)

/-- Result of an attempted sandbox asset add.  `rejected` covers every
validation toast of PortfolioSandbox.handleAdd and App.handleAddStock;
it is produced before fetchAssetFinancials would run, so the user-added
list is left unchanged.  `fetched` carries the new user-added list that
setUserAddedAssets installs after the fetch. -/
inductive AddAssetResult where
  | rejected : AddAssetResult
  | fetched : List SuggestedAsset → AddAssetResult
  deriving DecidableEq

/-- The model of JS String.prototype.trim used on the ticker input:
drop leading and trailing whitespace characters. -/
def trimStr (s : String) : String :=
  ⟨((s.data.dropWhile Char.isWhitespace).reverse.dropWhile Char.isWhitespace).reverse⟩

/-- The model of JS String.prototype.toUpperCase, character-wise
upper-casing (the tickers in play are ASCII). -/
def toUpperStr (s : String) : String :=
  ⟨s.data.map Char.toUpper⟩

/-- The running total of user-added allocations
(src/App.tsx line 214). -/
def userAllocTotal (users : List SuggestedAsset) : ℚ :=
  users.foldl (fun sum a => sum + a.allocation) 0

/-- The user asset built in src/App.tsx lines 223-229 once
fetchAssetFinancials has resolved with `financials`. -/
def newUserAsset (ticker : String) (allocNum : ℚ)
    (financials : SuggestedAsset) : SuggestedAsset :=
  { financials with
      ticker := toUpperStr ticker
      allocation := allocNum
      isUserAdded := some true
      purchasePrice := financials.marketData.map MarketData.currentPrice }

/-- The add-asset path: the validations of PortfolioSandbox.handleAdd
(empty ticker, allocation outside (0,100)) followed by those of
App.handleAddStock (duplicate ticker in the active portfolio compared
via toUpperCase, user-added total reaching or passing 100).  Only when
every check passes does the asynchronous fetchAssetFinancials result
`financials` enter the output list. -/
def handleAddStock (activeAssets users : List SuggestedAsset)
    (ticker : String) (allocNum : ℚ) (financials : SuggestedAsset) :
    AddAssetResult :=
  if trimStr ticker = "" then AddAssetResult.rejected
  else if allocNum ≤ 0 ∨ 100 ≤ allocNum then AddAssetResult.rejected
  else if activeAssets.any (fun a => decide (toUpperStr a.ticker = toUpperStr ticker)) then
    AddAssetResult.rejected
  else if 100 ≤ userAllocTotal users + allocNum then AddAssetResult.rejected
  else AddAssetResult.fetched (users ++ [newUserAsset ticker allocNum financials])

/-- OptimizedAllocation from src/types.ts. -/
structure OptimizedAllocation where
  ticker : String
  allocation : ℚ
  deriving DecidableEq

/-- The total of the allocations returned by the optimization service
(src/services/geminiService.ts line 345). -/
def optAllocTotal (result : List OptimizedAllocation) : ℚ :=
  result.foldl (fun sum a => sum + a.allocation) 0

/-- The post-processing of fetchOptimizedAllocations
(src/services/geminiService.ts lines 342-351): when the returned
allocations deviate from 100 by more than 1 point, every allocation is
rescaled by 100 / total; otherwise the list is returned as is. -/
def normalizeAllocations (result : List OptimizedAllocation) :
    List OptimizedAllocation :=
  let totalAllocation := optAllocTotal result
  if 1 < |totalAllocation - 100| then
    result.map fun a => { a with allocation := a.allocation / totalAllocation * 100 }
  else result

/-- Base asset A of the worked example in spec.md section 8
(alloc 60, beta 1.0, return 10, vol 15). -/
def assetA : SuggestedAsset :=
  { ticker := "AAA", name := "Asset A", sector := "Technology",
    allocation := 60, beta := 1, expectedReturn := 10, volatility := 15,
    rationale := "base asset A" }

/-- Base asset B of the worked example (alloc 40, beta 0.5, return 6,
vol 8). -/
def assetB : SuggestedAsset :=
  { ticker := "BBB", name := "Asset B", sector := "Healthcare",
    allocation := 40, beta := 1/2, expectedReturn := 6, volatility := 8,
    rationale := "base asset B" }

/-- User-added asset C of the worked example (alloc 20, beta 2.0,
return 20, vol 30). -/
def assetC : SuggestedAsset :=
  { ticker := "CCC", name := "Asset C", sector := "Energy",
    allocation := 20, beta := 2, expectedReturn := 20, volatility := 30,
    rationale := "user asset C", isUserAdded := some true }

/-- A strategy block for the example base portfolio. -/
def baseStrategy : StrategyAnalysis :=
  { summary := "example summary",
    conservativeMeasures := "example measures",
    marketOutlook := "example outlook",
    portfolioMetrics :=
      { expectedReturn := 42/5, volatility := 61/5, weightedBeta := 4/5,
        riskScore := 13/2 },
    benchmarks := [] }

/-- The example base portfolio holding assets A and B. -/
def basePD : PortfolioDetails :=
  { title := "Base", assets := [assetA, assetB], strategy := baseStrategy }

/-- A base asset with a negative beta, for the risk-score clamp
example. -/
def assetNeg : SuggestedAsset :=
  { ticker := "NNN", name := "Asset N", sector := "Financials",
    allocation := 50, beta := -3, expectedReturn := 4, volatility := 12,
    rationale := "negative beta" }

/-- A user-added asset with a negative beta. -/
def assetNegU : SuggestedAsset :=
  { ticker := "MMM", name := "Asset M", sector := "Utilities",
    allocation := 30, beta := -2, expectedReturn := 5, volatility := 11,
    rationale := "negative beta user asset", isUserAdded := some true }

/-- A base portfolio whose single asset has a negative beta. -/
def negBase : PortfolioDetails :=
  { title := "Negative", assets := [assetNeg], strategy := baseStrategy }

/-- Random draws refuting the rounded-feedback reading of the
performance walk: day 0 draws (1/7, 0, 0), later days (1/100, 0, 0). -/
def usCex : ℕ → ℚ × ℚ × ℚ :=
  fun j => if j = 0 then (1/7, 0, 0) else (1/100, 0, 0)

/-- A ticker used in concrete market-data examples. -/
def tkA : String := "AAPL"

/-- A second ticker used in concrete market-data examples. -/
def tkB : String := "MSFT"

/-- The everywhere-absent price cache at process start. -/
def zeroCache : String → ℚ := fun _ => 0

/-- A draw stream whose Math.random() values are all 1/2. -/
def uHalf : ℕ → ℚ × ℚ := fun _ => (1/2, 1/2)

/-- A draw stream with seed draw 1/2 and fluctuation draw 3/4. -/
def uQ3 : ℕ → ℚ × ℚ := fun _ => (1/2, 3/4)

/-- A concrete single fetchMarketData call for two tickers. -/
def demoCalls : List ((ℕ → ℚ × ℚ) × List String) := [(uHalf, [tkA, tkB])]

/-- A ticker for the sandbox-add examples. -/
def tkT : String := "TSLA"

/-- A concrete fetchAssetFinancials result for the sandbox-add
examples. -/
def finT : SuggestedAsset :=
  { ticker := "TSLA", name := "TSLA Holdings Inc.", sector := "Technology",
    allocation := 0, beta := 6/5, expectedReturn := 9, volatility := 21,
    rationale := "user added",
    marketData := some { currentPrice := 250, priceChange := 5, priceChangePercent := 2 } }

/-- A user-added list whose allocations total 89. -/
def users89 : List SuggestedAsset :=
  [{ ticker := "XXX", name := "Asset X", sector := "Industrials",
     allocation := 89, beta := 1, expectedReturn := 7, volatility := 14,
     rationale := "existing user asset", isUserAdded := some true }]

/-- A user-added list whose allocations total 90. -/
def users90 : List SuggestedAsset :=
  [{ ticker := "YYY", name := "Asset Y", sector := "Industrials",
     allocation := 90, beta := 1, expectedReturn := 7, volatility := 14,
     rationale := "existing user asset", isUserAdded := some true }]

/-- A concrete optimization-service response whose allocations total
60, deviating from 100 by more than 1 point. -/
def optEx : List OptimizedAllocation :=
  [{ ticker := "AAPL", allocation := 50 }, { ticker := "MSFT", allocation := 10 }]

theorem foldl_add_eq_sum {α : Type} (g : α → ℚ) (l : List α) (c : ℚ) :
    l.foldl (fun s a => s + g a) c = c + (l.map g).sum := by
  induction l generalizing c with
  | nil => simp
  | cons a l ih =>
    simp only [List.foldl_cons, ih, List.map_cons, List.sum_cons]
    ring

theorem allocFoldl_eq (l : List SuggestedAsset) :
    l.foldl (fun sum a => sum + a.allocation) 0 = allocSum l := by
  simpa [allocSum] using foldl_add_eq_sum SuggestedAsset.allocation l 0

theorem weightedFoldl_eq (g : SuggestedAsset → ℚ) (l : List SuggestedAsset) :
    l.foldl (fun acc a => acc + g a * (a.allocation / 100)) 0 = weightedSum g l := by
  simpa [weightedSum] using foldl_add_eq_sum (fun a => g a * (a.allocation / 100)) l 0

theorem allocSum_cons (a : SuggestedAsset) (l : List SuggestedAsset) :
    allocSum (a :: l) = a.allocation + allocSum l := by
  simp [allocSum]

theorem allocSum_append (l₁ l₂ : List SuggestedAsset) :
    allocSum (l₁ ++ l₂) = allocSum l₁ + allocSum l₂ := by
  simp [allocSum]

theorem allocSum_scale (s : ℚ) (l : List SuggestedAsset) :
    allocSum (l.map (fun a => { a with allocation := a.allocation * s }))
      = allocSum l * s := by
  induction l with
  | nil => simp [allocSum]
  | cons a l ih =>
    simp only [List.map_cons, allocSum_cons] at ih ⊢
    rw [ih]
    ring

theorem blend_assets_eq (base : PortfolioDetails) (u : SuggestedAsset)
    (us : List SuggestedAsset) :
    (activePortfolioBlend base (u :: us)).assets
      = base.assets.map (fun a =>
          { a with allocation := a.allocation * max 0 ((100 - allocSum (u :: us)) / 100) })
        ++ (u :: us) := by
  simp only [activePortfolioBlend, List.isEmpty_cons, Bool.false_eq_true, if_false,
    allocFoldl_eq]

theorem blend_title_eq (base : PortfolioDetails) (u : SuggestedAsset)
    (us : List SuggestedAsset) :
    (activePortfolioBlend base (u :: us)).title = base.title ++ sandboxSuffix := by
  simp only [activePortfolioBlend, List.isEmpty_cons, Bool.false_eq_true, if_false]

theorem blend_metrics_eq (base : PortfolioDetails) (u : SuggestedAsset)
    (us : List SuggestedAsset) :
    (activePortfolioBlend base (u :: us)).strategy.portfolioMetrics
      = { expectedReturn :=
            weightedSum SuggestedAsset.expectedReturn (activePortfolioBlend base (u :: us)).assets
          volatility :=
            weightedSum SuggestedAsset.volatility (activePortfolioBlend base (u :: us)).assets
          weightedBeta :=
            weightedSum SuggestedAsset.beta (activePortfolioBlend base (u :: us)).assets
          riskScore := max 1 (min 10
            (weightedSum SuggestedAsset.beta (activePortfolioBlend base (u :: us)).assets * 5
              + 5/2)) } := by
  simp only [activePortfolioBlend, List.isEmpty_cons, Bool.false_eq_true, if_false,
    allocFoldl_eq, weightedFoldl_eq]

/-- C1: for every base portfolio and non-empty user-added list, the
blender rescales each base allocation by
scaleFactor = max 0 ((100 - totalUserAllocation) / 100), appends the
user-added assets after the rescaled base assets, and recomputes
expectedReturn, volatility and weightedBeta as sums of
attribute * allocation / 100 over the combined list, with riskScore the
clamp of weightedBeta * 5 + 2.5.  The worked numbers (allocations
48 / 32 / 20, weightedBeta 1.04, riskScore 7.7) are checked in the
witness. -/
theorem blend_rescale_append_metrics (base : PortfolioDetails)
    (users : List SuggestedAsset) (h : users ≠ []) :
    (activePortfolioBlend base users).assets
      = base.assets.map (fun a =>
          { a with allocation := a.allocation * max 0 ((100 - allocSum users) / 100) })
        ++ users
    ∧ (activePortfolioBlend base users).strategy.portfolioMetrics.expectedReturn
      = weightedSum SuggestedAsset.expectedReturn (activePortfolioBlend base users).assets
    ∧ (activePortfolioBlend base users).strategy.portfolioMetrics.volatility
      = weightedSum SuggestedAsset.volatility (activePortfolioBlend base users).assets
    ∧ (activePortfolioBlend base users).strategy.portfolioMetrics.weightedBeta
      = weightedSum SuggestedAsset.beta (activePortfolioBlend base users).assets
    ∧ (activePortfolioBlend base users).strategy.portfolioMetrics.riskScore
      = max 1 (min 10
          (weightedSum SuggestedAsset.beta (activePortfolioBlend base users).assets * 5 + 5/2))
    ∧ (activePortfolioBlend base users).title = base.title ++ sandboxSuffix := by
  cases users with
  | nil => exact absurd rfl h
  | cons u us =>
    refine ⟨blend_assets_eq base u us, ?_, ?_, ?_, ?_, blend_title_eq base u us⟩ <;>
      rw [blend_metrics_eq base u us]

/-- Witness for C1: the worked example of spec.md section 8, with the
general theorem instantiated at it. -/
theorem blend_rescale_append_metrics_witness :
    ([assetC] ≠ ([] : List SuggestedAsset))
    ∧ (activePortfolioBlend basePD [assetC]).assets.map SuggestedAsset.allocation
        = [48, 32, 20]
    ∧ (activePortfolioBlend basePD [assetC]).strategy.portfolioMetrics.weightedBeta = 26/25
    ∧ (activePortfolioBlend basePD [assetC]).strategy.portfolioMetrics.riskScore = 77/10
    ∧ (activePortfolioBlend basePD [assetC]).assets
        = basePD.assets.map (fun a =>
            { a with allocation := a.allocation * max 0 ((100 - allocSum [assetC]) / 100) })
          ++ [assetC] := by
  refine ⟨by simp, ?_, ?_, ?_,
    (blend_rescale_append_metrics basePD [assetC] (by simp)).1⟩ <;>
    norm_num [activePortfolioBlend, basePD, baseStrategy, assetA, assetB, assetC,
      allocSum, weightedSum]

/-- C2: blending with an empty user-added list returns a portfolio
equal to the base in every field. -/
theorem blend_empty_identity (base : PortfolioDetails) :
    activePortfolioBlend base [] = base := rfl

/-- C3: for every base portfolio and non-empty user-added list, the
blended allocations sum to
(sum of base allocations) * scaleFactor + (sum of user allocations);
when the base sums to exactly 100 and the user-added total is at most
100, the combined sum is exactly 100. -/
theorem blend_allocation_sum (base : PortfolioDetails)
    (users : List SuggestedAsset) (h : users ≠ []) :
    allocSum (activePortfolioBlend base users).assets
      = allocSum base.assets * max 0 ((100 - allocSum users) / 100) + allocSum users
    ∧ (allocSum base.assets = 100 → allocSum users ≤ 100 →
        allocSum (activePortfolioBlend base users).assets = 100) := by
  cases users with
  | nil => exact absurd rfl h
  | cons u us =>
    have hsum : allocSum (activePortfolioBlend base (u :: us)).assets
        = allocSum base.assets * max 0 ((100 - allocSum (u :: us)) / 100)
          + allocSum (u :: us) := by
      rw [blend_assets_eq base u us, allocSum_append, allocSum_scale]
    refine ⟨hsum, fun hb hu => ?_⟩
    rw [hsum, hb, max_eq_right (by linarith)]
    ring

/-- Witness for C3: the worked example, whose base sums to 100 and
whose user-added total is 20, blends to a combined sum of exactly
100. -/
theorem blend_allocation_sum_witness :
    ([assetC] ≠ ([] : List SuggestedAsset))
    ∧ allocSum basePD.assets = 100
    ∧ allocSum [assetC] ≤ 100
    ∧ allocSum (activePortfolioBlend basePD [assetC]).assets = 100 :=
  ⟨by simp,
   by norm_num [allocSum, basePD, assetA, assetB],
   by norm_num [allocSum, assetC],
   (blend_allocation_sum basePD [assetC] (by simp)).2
     (by norm_num [allocSum, basePD, assetA, assetB])
     (by norm_num [allocSum, assetC])⟩

/-- C5: for every blend with a non-empty user-added list, the
recomputed riskScore is the clamp of weightedBeta * 5 + 2.5 to [1, 10],
and therefore always lies in [1, 10], whatever the betas are. -/
theorem blend_riskScore_clamped (base : PortfolioDetails)
    (users : List SuggestedAsset) (h : users ≠ []) :
    (activePortfolioBlend base users).strategy.portfolioMetrics.riskScore
      = max 1 (min 10
          ((activePortfolioBlend base users).strategy.portfolioMetrics.weightedBeta * 5 + 5/2))
    ∧ 1 ≤ (activePortfolioBlend base users).strategy.portfolioMetrics.riskScore
    ∧ (activePortfolioBlend base users).strategy.portfolioMetrics.riskScore ≤ 10 := by
  cases users with
  | nil => exact absurd rfl h
  | cons u us =>
    rw [blend_metrics_eq base u us]
    refine ⟨rfl, le_max_left 1 _, max_le (by norm_num) (min_le_left 10 _)⟩

/-- Witness for C5: a blend whose betas are negative clamps to
riskScore 1, inside [1, 10]. -/
theorem blend_riskScore_clamped_witness :
    ([assetNegU] ≠ ([] : List SuggestedAsset))
    ∧ (activePortfolioBlend negBase [assetNegU]).strategy.portfolioMetrics.riskScore = 1
    ∧ 1 ≤ (activePortfolioBlend negBase [assetNegU]).strategy.portfolioMetrics.riskScore
    ∧ (activePortfolioBlend negBase [assetNegU]).strategy.portfolioMetrics.riskScore ≤ 10 :=
  ⟨by simp,
   by norm_num [activePortfolioBlend, negBase, baseStrategy, assetNeg, assetNegU],
   (blend_riskScore_clamped negBase [assetNegU] (by simp)).2⟩

theorem previousPrice_pos (cache : String → ℚ) (useed : ℚ) (t : String)
    (hc : 0 ≤ cache t) (hs : 0 ≤ useed) : 0 < previousPrice cache useed t := by
  unfold previousPrice
  split
  · nlinarith
  · next h => exact lt_of_le_of_ne hc (Ne.symm h)

theorem fluctFactor_pos (u : ℚ) (h0 : 0 ≤ u) : 0 < 1 + (u - 1/2) * (5/100) := by
  nlinarith

theorem processTicker_cache_apply (cache : String → ℚ) (useed ufluct : ℚ)
    (t s : String) :
    (processTicker cache useed ufluct t).2 s
      = if s = t then (processTicker cache useed ufluct t).1.currentPrice
        else cache s := rfl

theorem processTicker_currentPrice (cache : String → ℚ) (useed ufluct : ℚ)
    (t : String) :
    (processTicker cache useed ufluct t).1.currentPrice
      = previousPrice cache useed t * (1 + (ufluct - 1/2) * (5/100)) := rfl

theorem processTicker_price_pos (cache : String → ℚ) (useed ufluct : ℚ)
    (t : String) (hc : 0 ≤ cache t) (hs : 0 ≤ useed) (hf : 0 ≤ ufluct) :
    0 < (processTicker cache useed ufluct t).1.currentPrice := by
  rw [processTicker_currentPrice]
  exact mul_pos (previousPrice_pos cache useed t hc hs) (fluctFactor_pos ufluct hf)

theorem fetchMarketDataAux_cons (us : ℕ → ℚ × ℚ) (t : String)
    (ts : List String) (cache : String → ℚ) (k : ℕ) :
    fetchMarketDataAux us (t :: ts) cache k
      = ((t, (processTicker cache (us k).1 (us k).2 t).1)
           :: (fetchMarketDataAux us ts (processTicker cache (us k).1 (us k).2 t).2 (k + 1)).1,
         (fetchMarketDataAux us ts (processTicker cache (us k).1 (us k).2 t).2 (k + 1)).2) :=
  rfl

theorem fetchMarketData_single (cache : String → ℚ) (us : ℕ → ℚ × ℚ)
    (t : String) :
    fetchMarketData cache us [t]
      = ([(t, (processTicker cache (us 0).1 (us 0).2 t).1)],
         (processTicker cache (us 0).1 (us 0).2 t).2) := rfl

/-- C7: fetchMarketData writes the newly computed price back into the
price cache before returning, so a second call for the same ticker uses
the first call's returned price as the basis of its fluctuation instead
of reseeding a fresh base price. -/
theorem marketData_cache_reuse (cache : String → ℚ) (u1 u2 : ℕ → ℚ × ℚ)
    (t : String) (hc : 0 ≤ cache t)
    (hs : 0 ≤ (u1 0).1) (hf : 0 ≤ (u1 0).2) :
    (fetchMarketData cache u1 [t]).1.map (fun q => q.2.currentPrice)
      = [(fetchMarketData cache u1 [t]).2 t]
    ∧ 0 < (fetchMarketData cache u1 [t]).2 t
    ∧ (fetchMarketData (fetchMarketData cache u1 [t]).2 u2 [t]).1.map
        (fun q => q.2.currentPrice)
      = [(fetchMarketData cache u1 [t]).2 t * (1 + ((u2 0).2 - 1/2) * (5/100))]
    ∧ (fetchMarketData (fetchMarketData cache u1 [t]).2 u2 [t]).2 t
      = (fetchMarketData cache u1 [t]).2 t * (1 + ((u2 0).2 - 1/2) * (5/100)) := by
  have hpos : 0 < (processTicker cache (u1 0).1 (u1 0).2 t).1.currentPrice :=
    processTicker_price_pos cache (u1 0).1 (u1 0).2 t hc hs hf
  have hwr : (processTicker cache (u1 0).1 (u1 0).2 t).2 t
      = (processTicker cache (u1 0).1 (u1 0).2 t).1.currentPrice := by
    rw [processTicker_cache_apply, if_pos rfl]
  have hprev : previousPrice (processTicker cache (u1 0).1 (u1 0).2 t).2 (u2 0).1 t
      = (processTicker cache (u1 0).1 (u1 0).2 t).1.currentPrice := by
    unfold previousPrice
    rw [hwr, if_neg (ne_of_gt hpos)]
  refine ⟨?_, ?_, ?_, ?_⟩
  · rw [fetchMarketData_single, hwr]
    simp
  · rw [fetchMarketData_single]
    exact hwr ▸ hpos
  · rw [fetchMarketData_single, fetchMarketData_single, hwr]
    simp only [List.map_cons, List.map_nil, processTicker_currentPrice, hprev]
  · rw [fetchMarketData_single, fetchMarketData_single, hwr,
      processTicker_cache_apply, if_pos rfl, processTicker_currentPrice, hprev]

/-- Witness for C7: starting from the empty cache with seed draw 1/2
and fluctuation draws 1/2 then 3/4 for ticker AAPL. -/
theorem marketData_cache_reuse_witness :
    (fetchMarketData zeroCache uHalf [tkA]).1.map (fun q => q.2.currentPrice)
      = [(fetchMarketData zeroCache uHalf [tkA]).2 tkA]
    ∧ 0 < (fetchMarketData zeroCache uHalf [tkA]).2 tkA
    ∧ (fetchMarketData (fetchMarketData zeroCache uHalf [tkA]).2 uQ3 [tkA]).1.map
        (fun q => q.2.currentPrice)
      = [(fetchMarketData zeroCache uHalf [tkA]).2 tkA * (1 + ((uQ3 0).2 - 1/2) * (5/100))]
    ∧ (fetchMarketData (fetchMarketData zeroCache uHalf [tkA]).2 uQ3 [tkA]).2 tkA
      = (fetchMarketData zeroCache uHalf [tkA]).2 tkA * (1 + ((uQ3 0).2 - 1/2) * (5/100)) :=
  marketData_cache_reuse zeroCache uHalf uQ3 tkA (le_refl 0)
    (by norm_num [uHalf]) (by norm_num [uHalf])

theorem fetchMarketDataAux_pos (us : ℕ → ℚ × ℚ)
    (hus : ∀ n, 0 ≤ (us n).1 ∧ 0 ≤ (us n).2) (tickers : List String) :
    ∀ (cache : String → ℚ) (k : ℕ), (∀ s, 0 ≤ cache s) →
      (∀ s, 0 ≤ (fetchMarketDataAux us tickers cache k).2 s)
      ∧ (∀ s, 0 < cache s → 0 < (fetchMarketDataAux us tickers cache k).2 s)
      ∧ (∀ s ∈ tickers, 0 < (fetchMarketDataAux us tickers cache k).2 s)
      ∧ ∀ q ∈ (fetchMarketDataAux us tickers cache k).1, 0 < q.2.currentPrice := by
  induction tickers with
  | nil =>
    intro cache k hc
    exact ⟨hc, fun s hs => hs, by simp, by simp [fetchMarketDataAux]⟩
  | cons t ts ih =>
    intro cache k hc
    have hnew : 0 < (processTicker cache (us k).1 (us k).2 t).1.currentPrice :=
      processTicker_price_pos cache (us k).1 (us k).2 t (hc t) (hus k).1 (hus k).2
    have hc1 : ∀ s, 0 ≤ (processTicker cache (us k).1 (us k).2 t).2 s := by
      intro s
      rw [processTicker_cache_apply]
      split
      · exact le_of_lt hnew
      · exact hc s
    obtain ⟨iha, ihb, ihc, ihd⟩ :=
      ih (processTicker cache (us k).1 (us k).2 t).2 (k + 1) hc1
    rw [fetchMarketDataAux_cons]
    refine ⟨iha, ?_, ?_, ?_⟩
    · intro s hs
      refine ihb s ?_
      rw [processTicker_cache_apply]
      split
      · exact hnew
      · exact hs
    · intro s hs
      rcases List.mem_cons.mp hs with hst | hsts
      · refine ihb s ?_
        rw [hst, processTicker_cache_apply, if_pos rfl]
        exact hnew
      · exact ihc s hsts
    · intro q hq
      rcases List.mem_cons.mp hq with hq1 | hq2
      · rw [hq1]
        exact hnew
      · exact ihd q hq2

/-- C10: starting from a cache whose entries are all nonnegative (the
empty cache stores 0 everywhere, i.e. nothing), any sequence of
fetchMarketData calls whose Math.random() draws lie in [0, 1) leaves
every stored price strictly positive, so the previous price used as the
divisor of priceChangePercent on a subsequent call is never zero. -/
theorem priceCache_positive (cache : String → ℚ)
    (calls : List ((ℕ → ℚ × ℚ) × List String))
    (hc : ∀ s, 0 ≤ cache s)
    (hcalls : ∀ c ∈ calls, ∀ n,
      0 ≤ (c.1 n).1 ∧ (c.1 n).1 < 1 ∧ 0 ≤ (c.1 n).2 ∧ (c.1 n).2 < 1) :
    (∀ s, 0 ≤ runCalls cache calls s)
    ∧ (∀ s, runCalls cache calls s ≠ 0 → 0 < runCalls cache calls s)
    ∧ ∀ s useed, 0 ≤ useed → 0 < previousPrice (runCalls cache calls) useed s := by
  have key : ∀ (cl : List ((ℕ → ℚ × ℚ) × List String)) (c0 : String → ℚ),
      (∀ s, 0 ≤ c0 s) →
      (∀ c ∈ cl, ∀ n, 0 ≤ (c.1 n).1 ∧ (c.1 n).1 < 1 ∧ 0 ≤ (c.1 n).2 ∧ (c.1 n).2 < 1) →
      ∀ s, 0 ≤ runCalls c0 cl s := by
    intro cl
    induction cl with
    | nil => intro c0 h0 _ s; exact h0 s
    | cons c cl ih =>
      intro c0 h0 hcl s
      have hdr : ∀ n, 0 ≤ (c.1 n).1 ∧ 0 ≤ (c.1 n).2 := by
        intro n
        obtain ⟨a, _, b, _⟩ := hcl c (List.mem_cons_self c cl) n
        exact ⟨a, b⟩
      have h1 : ∀ s, 0 ≤ (fetchMarketData c0 c.1 c.2).2 s :=
        (fetchMarketDataAux_pos c.1 hdr c.2 c0 0 h0).1
      exact ih (fetchMarketData c0 c.1 c.2).2 h1
        (fun c' hc' => hcl c' (List.mem_cons_of_mem c hc')) s
  refine ⟨key calls cache hc hcalls, fun s hne =>
    lt_of_le_of_ne (key calls cache hc hcalls s) (Ne.symm hne),
    fun s useed hu =>
      previousPrice_pos (runCalls cache calls) useed s
        (key calls cache hc hcalls s) hu⟩

/-- Witness for C10: one call for AAPL and MSFT from the empty cache
with all draws 1/2 leaves the AAPL entry nonnegative and a later
previous-price lookup strictly positive. -/
theorem priceCache_positive_witness :
    0 ≤ runCalls zeroCache demoCalls tkA
    ∧ 0 < previousPrice (runCalls zeroCache demoCalls) (1/2) tkA := by
  have h := priceCache_positive zeroCache demoCalls (fun s => le_refl 0)
    (by
      intro c hcmem n
      simp only [demoCalls, List.mem_singleton] at hcmem
      subst hcmem
      norm_num [uHalf])
  exact ⟨h.1 tkA, h.2.2 tkA (1/2) (by norm_num)⟩

theorem perfHistAux_length (today : ℤ) (us : ℕ → ℚ × ℚ × ℚ) :
    ∀ (n j : ℕ) (pv bv av : ℚ), (perfHistAux today us j pv bv av n).length = n := by
  intro n
  induction n with
  | zero => intro j pv bv av; rfl
  | succ n ih =>
    intro j pv bv av
    rw [perfHistAux]
    simp [ih]

theorem perfHistAux_dates (today : ℤ) (us : ℕ → ℚ × ℚ × ℚ) :
    ∀ (n j : ℕ) (pv bv av : ℚ),
      (perfHistAux today us j pv bv av n).map PerformanceDataPoint.date
        = (List.range n).map (fun k => today - 180 + (j + k : ℕ)) := by
  intro n
  induction n with
  | zero => intro j pv bv av; rfl
  | succ n ih =>
    intro j pv bv av
    rw [perfHistAux, List.range_succ_eq_map]
    simp only [List.map_cons, List.map_map, ih (j + 1)]
    refine List.cons_eq_cons.mpr ⟨?_, ?_⟩
    · push_cast
      ring
    · congr 1
      funext k
      simp only [Function.comp_apply]
      push_cast
      ring

/-- C9: the performance-history simulator returns exactly 181 points,
whose dates ascend by one day from today - 180 up to today. -/
theorem perfHistory_length_dates (today : ℤ) (us : ℕ → ℚ × ℚ × ℚ) :
    (fetchPerformanceHistory today us).length = 181
    ∧ (fetchPerformanceHistory today us).map PerformanceDataPoint.date
        = (List.range 181).map (fun k => today - 180 + (k : ℕ))
    ∧ List.Chain' (fun a b => b = a + 1)
        ((fetchPerformanceHistory today us).map PerformanceDataPoint.date)
    ∧ ((fetchPerformanceHistory today us).map PerformanceDataPoint.date).head?
        = some (today - 180)
    ∧ ((fetchPerformanceHistory today us).map PerformanceDataPoint.date).getLast?
        = some today := by
  have hd : (fetchPerformanceHistory today us).map PerformanceDataPoint.date
      = (List.range 181).map (fun k => today - 180 + (k : ℕ)) := by
    rw [fetchPerformanceHistory, perfHistAux_dates]
    congr 1
    funext k
    push_cast
    ring
  refine ⟨perfHistAux_length today us 181 0 100000 100000 100000, hd, ?_, ?_, ?_⟩
  · rw [hd, List.chain'_map]
    rw [show (181 : ℕ) = 180 + 1 from rfl, List.chain'_range_succ]
    intro m hm
    push_cast
    ring
  · rw [hd, show (181 : ℕ) = 180 + 1 from rfl, List.range_succ_eq_map]
    simp
  · rw [hd, show (181 : ℕ) = 180 + 1 from rfl, List.range_succ, List.map_append]
    simp

theorem perfHistAux_values (today : ℤ) (us : ℕ → ℚ × ℚ × ℚ) :
    ∀ (n j : ℕ) (pv bv av : ℚ),
      (perfHistAux today us j pv bv av n).map valueTriple
        = (perfWalkAux us j pv bv av n).map
            (fun v => (round2 v.1, round2 v.2.1, round2 v.2.2)) := by
  intro n
  induction n with
  | zero => intro j pv bv av; rfl
  | succ n ih =>
    intro j pv bv av
    rw [perfHistAux, perfWalkAux]
    simp only [List.map_cons, ih (j + 1)]
    rfl

/-- C4 amended: in the performance-history simulator each recorded
value is the 2-decimal rounding of the corresponding value of an
entirely unrounded random walk; the walk itself continues from the
unrounded value, so rounding never compounds into later days. -/
theorem perfHistory_rounds_at_record_only (today : ℤ) (us : ℕ → ℚ × ℚ × ℚ) :
    (fetchPerformanceHistory today us).map valueTriple
      = (perfWalkAux us 0 100000 100000 100000 181).map
          (fun v => (round2 v.1, round2 v.2.1, round2 v.2.2)) := by
  rw [fetchPerformanceHistory]
  exact perfHistAux_values today us 181 0 100000 100000 100000

/-- Counterexample for C4: with day-0 portfolio draw 1/7 and day-1 draw
1/100, the code's day-1 recorded portfolio value (98792.85, walking on
from the unrounded 99494.285714...) differs from the value the
rounded-feedback reading of the spec would record (98792.86, walking on
from 99494.29), so the simulator does not continue the walk from the
rounded value. -/
theorem perfHistory_rounded_walk_cex :
    fetchPerformanceHistory 0 usCex ≠ fetchPerformanceHistorySpec 0 usCex := by
  intro h
  have h2 := congrArg
    (fun l : List PerformanceDataPoint => l[1]?.map PerformanceDataPoint.portfolioValue) h
  rw [fetchPerformanceHistory, fetchPerformanceHistorySpec,
    show (181 : ℕ) = 180 + 1 from rfl, perfHistAux, perfHistSpecAux,
    show (180 : ℕ) = 179 + 1 from rfl, perfHistAux, perfHistSpecAux] at h2
  simp only [usCex, if_pos, if_neg, List.getElem?_cons_succ, List.getElem?_cons_zero,
    Option.map_some'] at h2
  norm_num [round2, round_eq] at h2

/-- C6: a sandbox add with an empty (after trimming) ticker, an
allocation outside (0, 100), a duplicate ticker in the active portfolio
under case-insensitive comparison, or a user-added total reaching or
passing 100, is rejected whatever fetchAssetFinancials would have
returned — so no fetch result ever enters the state and the user-added
list is unchanged.  When every check passes, a combined user-added
total of 99 is accepted (the asset is appended) while exactly 100 is
rejected. -/
theorem addStock_validation (activeAssets users : List SuggestedAsset)
    (ticker : String) (allocNum : ℚ) :
    ((trimStr ticker = "" ∨ allocNum ≤ 0 ∨ 100 ≤ allocNum
        ∨ activeAssets.any (fun a => decide (toUpperStr a.ticker = toUpperStr ticker)) = true
        ∨ 100 ≤ userAllocTotal users + allocNum) →
      ∀ financials, handleAddStock activeAssets users ticker allocNum financials
        = AddAssetResult.rejected)
    ∧ (trimStr ticker ≠ "" → 0 < allocNum → allocNum < 100 →
        activeAssets.any (fun a => decide (toUpperStr a.ticker = toUpperStr ticker)) = false →
        ∀ financials,
          (userAllocTotal users + allocNum = 99 →
            handleAddStock activeAssets users ticker allocNum financials
              = AddAssetResult.fetched (users ++ [newUserAsset ticker allocNum financials]))
          ∧ (userAllocTotal users + allocNum = 100 →
            handleAddStock activeAssets users ticker allocNum financials
              = AddAssetResult.rejected)) := by
  constructor
  · intro hrej financials
    unfold handleAddStock
    split_ifs with h1 h2 h3 h4
    · rfl
    · rfl
    · rfl
    · rfl
    · rcases hrej with h | h | h | h | h
      · exact absurd h h1
      · exact absurd (Or.inl h) h2
      · exact absurd (Or.inr h) h2
      · exact absurd h h3
      · exact absurd h h4
  · intro ht h0 h1 hdup financials
    have hrange : ¬(allocNum ≤ 0 ∨ 100 ≤ allocNum) := by
      rintro (h | h) <;> linarith
    have hdup' : ¬(activeAssets.any
        (fun a => decide (toUpperStr a.ticker = toUpperStr ticker)) = true) := by
      simp [hdup]
    constructor
    · intro h99
      unfold handleAddStock
      rw [if_neg ht, if_neg hrange, if_neg hdup', if_neg (by rw [h99]; norm_num)]
    · intro h100
      unfold handleAddStock
      rw [if_neg ht, if_neg hrange, if_neg hdup', if_pos (by rw [h100])]

/-- Witness for C6: with ticker TSLA and allocation 10 against an
existing user-added total of 89 the add is accepted (total 99); against
a total of 90 it is rejected (total exactly 100). -/
theorem addStock_validation_witness :
    handleAddStock [] users89 tkT 10 finT
      = AddAssetResult.fetched (users89 ++ [newUserAsset tkT 10 finT])
    ∧ handleAddStock [] users90 tkT 10 finT = AddAssetResult.rejected := by
  have h89 := (addStock_validation [] users89 tkT 10).2 (by decide) (by norm_num)
    (by norm_num) (by simp) finT
  have h90 := (addStock_validation [] users90 tkT 10).2 (by decide) (by norm_num)
    (by norm_num) (by simp) finT
  exact ⟨h89.1 (by norm_num [userAllocTotal, users89, List.foldl_cons, List.foldl_nil]),
         h90.2 (by norm_num [userAllocTotal, users90, List.foldl_cons, List.foldl_nil])⟩

theorem optFoldl_eq (l : List OptimizedAllocation) :
    optAllocTotal l = (l.map OptimizedAllocation.allocation).sum := by
  simpa [optAllocTotal] using foldl_add_eq_sum OptimizedAllocation.allocation l 0

theorem optSum_scale (c : ℚ) (l : List OptimizedAllocation) :
    ((l.map (fun a => { a with allocation := a.allocation / c * 100 })).map
        OptimizedAllocation.allocation).sum
      = (l.map OptimizedAllocation.allocation).sum / c * 100 := by
  induction l with
  | nil => simp
  | cons a l ih =>
    simp only [List.map_cons, List.sum_cons, ih]
    ring

/-- C8: when the allocations returned by the optimization service
deviate from 100 by more than 1 point, fetchOptimizedAllocations
rescales each one by 100 / total — so that (whenever the total is
nonzero, as the rescaling factor presupposes) the result sums to
exactly 100; when the deviation is at most 1 point the list is returned
unchanged. -/
theorem optimizedAllocations_normalized (result : List OptimizedAllocation) :
    (1 < |optAllocTotal result - 100| →
      normalizeAllocations result
        = result.map (fun a =>
            { a with allocation := a.allocation / optAllocTotal result * 100 })
      ∧ (optAllocTotal result ≠ 0 →
          optAllocTotal (normalizeAllocations result) = 100))
    ∧ (|optAllocTotal result - 100| ≤ 1 → normalizeAllocations result = result) := by
  constructor
  · intro hdev
    have hmap : normalizeAllocations result
        = result.map (fun a =>
            { a with allocation := a.allocation / optAllocTotal result * 100 }) := by
      unfold normalizeAllocations
      rw [if_pos hdev]
    refine ⟨hmap, fun hne => ?_⟩
    rw [hmap, optFoldl_eq, optSum_scale, ← optFoldl_eq]
    field_simp
  · intro hdev
    unfold normalizeAllocations
    rw [if_neg (not_lt.mpr hdev)]

/-- Witness for C8: a returned list totalling 60 is rescaled by 100/60
to 250/3 and 50/3, which sum to exactly 100. -/
theorem optimizedAllocations_normalized_witness :
    (1 < |optAllocTotal optEx - 100|)
    ∧ optAllocTotal optEx ≠ 0
    ∧ normalizeAllocations optEx
        = optEx.map (fun a =>
            { a with allocation := a.allocation / optAllocTotal optEx * 100 })
    ∧ optAllocTotal (normalizeAllocations optEx) = 100 := by
  have hdev : 1 < |optAllocTotal optEx - 100| := by
    norm_num [optAllocTotal, optEx, List.foldl_cons, List.foldl_nil]
  have h := (optimizedAllocations_normalized optEx).1 hdev
  exact ⟨hdev,
    by norm_num [optAllocTotal, optEx, List.foldl_cons, List.foldl_nil],
    h.1,
    h.2 (by norm_num [optAllocTotal, optEx, List.foldl_cons, List.foldl_nil])⟩

end PortfolioApp
